import Mathlib

/-!
Verification of the DARTS architecture-search training loop (`run.py`).

The development shallowly embeds the control structure of `run.py`:
the dataset split, the minibatch pairing of the two data streams, the
per-minibatch bilevel step sequence, the validator, and the epoch loop
with its best-genotype record and checkpointing.  External collaborators
(the search network, the unrolled gradient of the architect, the optimizers,
the `AverageMeter` utility) are modelled by abstract function parameters
or, where the spec fixes their contract, by definitions modelled from
the spec.  Scalars are rationals.
-/

namespace Darts

/-! ## Dataset split (`run.py` lines 60-64)

`split = n_train // 2; indices = list(range(n_train))`;
the train sampler draws from `indices[:split]`, the valid sampler from
`indices[split:]`.  The assignment of indices to halves is a pure
function of the dataset size, computed once in `main`. -/

/-- The train-half index set: `indices[:split]` with `split = n // 2`. -/
def trainIndices (n : ℕ) : List ℕ :=
  (List.range n).take (n / 2)

/-- The valid-half index set: `indices[split:]` with `split = n // 2`. -/
def validIndices (n : ℕ) : List ℕ :=
  (List.range n).drop (n / 2)

/-! ## DataLoader batching and the zipped step loop (`run.py` line 148)

`torch.utils.data.DataLoader` with `batch_size=b` (and the default
`drop_last=False`) cuts the index stream of a sampler into consecutive chunks
of `b` indices, the last chunk possibly shorter.  `chunkAux` is that
chunking, fueled for structural recursion; the fuel `l.length` always
suffices. -/

def chunkAux {α : Type} : ℕ → ℕ → List α → List (List α)
  | 0, _, _ => []
  | _ + 1, _, [] => []
  | fuel + 1, b, x :: xs => (x :: xs.take (b - 1)) :: chunkAux fuel b (xs.drop (b - 1))

/-- The list of minibatches a DataLoader with batch size `b` yields over
index stream `l` in one epoch. -/
def chunkList {α : Type} (b : ℕ) (l : List α) : List (List α) :=
  chunkAux l.length b l

/-- The number of iterations of
`for step, ((train_X, train_y), (valid_X, valid_y)) in enumerate(zip(train_loader, valid_loader))`:
the length of the zip of the two minibatch streams. -/
def numSteps (b : ℕ) (tr va : List ℕ) : ℕ :=
  (List.zip (chunkList b tr) (chunkList b va)).length

theorem chunkAux_flatten {α : Type} :
    ∀ (fuel b : ℕ) (l : List α), l.length ≤ fuel → (chunkAux fuel b l).flatten = l := by
  intro fuel
  induction fuel with
  | zero =>
    intro b l hl
    cases l with
    | nil => rfl
    | cons x xs => simp at hl
  | succ fuel ih =>
    intro b l hl
    cases l with
    | nil => rfl
    | cons x xs =>
      have hdrop : (xs.drop (b - 1)).length ≤ fuel := by
        simp only [List.length_cons, Nat.succ_le_succ_iff] at hl
        simp only [List.length_drop]
        omega
      simp only [chunkAux, List.flatten_cons]
      rw [ih b (xs.drop (b - 1)) hdrop]
      simp [List.take_append_drop]

theorem chunkList_flatten {α : Type} (b : ℕ) (l : List α) :
    (chunkList b l).flatten = l :=
  chunkAux_flatten l.length b l (le_refl _)

/-- C2: for every dataset size `n`, the split of `run.py` lines 60-64
yields two index sets that concatenate to the full index domain
`range n` (union is everything, in particular nothing is dropped), have
sizes `⌊n/2⌋` and `n - ⌊n/2⌋`, and are disjoint.  The half-assignment is
a pure function of `n` evaluated once in `main`, hence fixed for all
epochs. -/
theorem dataSplitter_partition (n : ℕ) :
    trainIndices n ++ validIndices n = List.range n ∧
    (trainIndices n).length = n / 2 ∧
    (validIndices n).length = n - n / 2 ∧
    ∀ i, i ∈ trainIndices n → i ∉ validIndices n := by
  refine ⟨List.take_append_drop _ _, ?_, ?_, ?_⟩
  · simp only [trainIndices, List.length_take, List.length_range]
    omega
  · simp only [validIndices, List.length_drop, List.length_range]
  · intro i hmem
    have hnd : (trainIndices n ++ validIndices n).Nodup := by
      simp only [trainIndices, validIndices, List.take_append_drop]
      exact List.nodup_range n
    exact (List.nodup_append.mp hnd).2.2 hmem

/-- C2 witness: the split at `n = 5`. -/
theorem dataSplitter_partition_witness :
    trainIndices 5 ++ validIndices 5 = List.range 5 ∧ 0 ∉ validIndices 5 :=
  ⟨(dataSplitter_partition 5).1, (dataSplitter_partition 5).2.2.2 0 (by decide)⟩

/-- C3: the train-half and valid-half minibatch streams are consumed in
lockstep by the `zip` on `run.py` line 148, so the number of
per-minibatch steps is the length of the shorter stream; concretely,
for a dataset of `N = 100` with batch size `10`, the split halves have
50 indices each, the loop runs exactly `5` step pairs, and one
validation pass consumes exactly the 50 valid-half indices once. -/
theorem lockstep_steps :
    (∀ (b : ℕ) (tr va : List ℕ),
      numSteps b tr va = min (chunkList b tr).length (chunkList b va).length) ∧
    numSteps 10 (trainIndices 100) (validIndices 100) = 5 ∧
    (chunkList 10 (validIndices 100)).flatten = validIndices 100 ∧
    (validIndices 100).length = 50 := by
  refine ⟨fun b tr va => ?_, by decide, chunkList_flatten _ _, by decide⟩
  simp [numSteps, List.length_zip]

/-! ## The per-minibatch bilevel step (`run.py` lines 153-166)

The network state visible to the training step: the architecture
parameters `alpha`, the network weights `w`, and their gradient
buffers.  The numerical computations performed by the external
collaborators are abstract parameters (`StepFns`): what `run.py` itself
fixes is which state components each call reads and writes, and in
which order the calls happen. -/

structure NetState where
  alpha : List ℚ
  w : List ℚ
  alphaGrad : List ℚ
  wGrad : List ℚ
  deriving DecidableEq, Repr

/-- Abstract numerical collaborators of one training step. -/
structure StepFns where
  /-- Modelled from the spec: `Architect.unrolled_backward` (module
  `architect`, not part of the excerpt) computes the architecture
  gradient from a virtual one-step-ahead weight update; its contract is
  "on return, α.grad is populated; w is unchanged from its pre-call
  value".  The function gives the populated `α.grad`. -/
  unrolledGrad : NetState → List ℚ
  /-- The Adam update of `α` from `α` and `α.grad`, `alpha_optim.step()`. -/
  alphaUpd : List ℚ → List ℚ → List ℚ
  /-- The weight gradient of `logits = model(train_X); loss = ...; loss.backward()`: the weight
  gradient produced by backpropagation at the current `α`, `w`. -/
  lossGrad : NetState → List ℚ
  /-- The clipping `nn.utils.clip_grad_norm_`: rescales the weight gradient. -/
  clipGrad : List ℚ → List ℚ
  /-- The SGD update of `w` from `w` and `w.grad`, `w_optim.step()`. -/
  wUpd : List ℚ → List ℚ → List ℚ

/-- Step 1, `alpha_optim.zero_grad()`: clears the `α` gradient buffer. -/
def alphaZeroGrad (s : NetState) : NetState :=
  { s with alphaGrad := s.alphaGrad.map fun _ => 0 }

/-- Step 2, `arch.unrolled_backward(...)`: populates `α.grad`; per the
contract of the architect it mutates neither `α` nor `w`. -/
def unrolledBackward (f : StepFns) (s : NetState) : NetState :=
  { s with alphaGrad := f.unrolledGrad s }

/-- Step 3, `alpha_optim.step()`: mutates `α` only. -/
def alphaOptimStep (f : StepFns) (s : NetState) : NetState :=
  { s with alpha := f.alphaUpd s.alpha s.alphaGrad }

/-- Step 4, `w_optim.zero_grad()`: clears the `w` gradient buffer. -/
def wZeroGrad (s : NetState) : NetState :=
  { s with wGrad := s.wGrad.map fun _ => 0 }

/-- Steps 5-6, `logits = model(train_X); loss = model.criterion(...);
loss.backward()`: populates `w.grad`. -/
def lossBackward (f : StepFns) (s : NetState) : NetState :=
  { s with wGrad := f.lossGrad s }

/-- Step 7, `nn.utils.clip_grad_norm_(model.weights(), ...)`: rewrites
`w.grad` in place. -/
def gradClip (f : StepFns) (s : NetState) : NetState :=
  { s with wGrad := f.clipGrad s.wGrad }

/-- Step 8, `w_optim.step()`: mutates `w` only. -/
def wOptimStep (f : StepFns) (s : NetState) : NetState :=
  { s with w := f.wUpd s.w s.wGrad }

/-- State after step 2 of the minibatch protocol. -/
def afterStep2 (f : StepFns) (s : NetState) : NetState :=
  unrolledBackward f (alphaZeroGrad s)

/-- State after step 3 of the minibatch protocol. -/
def afterStep3 (f : StepFns) (s : NetState) : NetState :=
  alphaOptimStep f (afterStep2 f s)

/-- State after step 7 of the minibatch protocol. -/
def afterStep7 (f : StepFns) (s : NetState) : NetState :=
  gradClip f (lossBackward f (wZeroGrad (afterStep3 f s)))

/-- The whole minibatch step, `run.py` lines 153-166 in program order. -/
def trainStep (f : StepFns) (s : NetState) : NetState :=
  wOptimStep f (afterStep7 f s)

/-- C1: in every minibatch step, `α` is unchanged through steps 1-2 and
is written only by step 3 (steps 4-8 leave it alone), `w` is unchanged
through steps 1-7 and is written only by step 8; in particular after
the unrolled architecture-gradient call of step 2, `w` equals its value
before the call. -/
theorem bilevel_step_ordering (f : StepFns) (s : NetState) :
    (afterStep2 f s).w = s.w ∧
    (alphaZeroGrad s).alpha = s.alpha ∧
    (afterStep2 f s).alpha = s.alpha ∧
    (afterStep3 f s).w = s.w ∧
    (wZeroGrad (afterStep3 f s)).w = s.w ∧
    (lossBackward f (wZeroGrad (afterStep3 f s))).w = s.w ∧
    (afterStep7 f s).w = s.w ∧
    (trainStep f s).alpha = (afterStep3 f s).alpha :=
  ⟨rfl, rfl, rfl, rfl, rfl, rfl, rfl, rfl⟩

/-! ## Validator (`run.py` lines 209-247)

`utils.AverageMeter` (module `tools.utils`, not part of the excerpt) is
modelled from the spec: `update(value, count)` folds a batch statistic
into a running count-weighted mean kept as a running sum and count;
`average` is `sum / count`. -/

structure AverageMeter where
  sum : ℚ
  count : ℚ
  deriving DecidableEq, Repr

/-- Modelled from the spec: a fresh meter, all accumulators zero. -/
def AverageMeter.init : AverageMeter := ⟨0, 0⟩

/-- Modelled from the spec: `update(val, n)` adds `val·n` to the running
sum and `n` to the running count. -/
def AverageMeter.update (m : AverageMeter) (val : ℚ) (n : ℕ) : AverageMeter :=
  ⟨m.sum + val * n, m.count + n⟩

/-- Modelled from the spec: the count-weighted running mean. -/
def AverageMeter.average (m : AverageMeter) : ℚ :=
  m.sum / m.count

/-- A validation minibatch: its example count `n = X.size(0)` and an
abstract payload index identifying its contents. -/
structure Batch where
  n : ℕ
  payload : ℕ
  deriving DecidableEq, Repr

/-- The validator `validate(valid_loader, model, ...)`: with the network in eval mode
and gradients disabled (`torch.no_grad()`), iterate over the valid-half
minibatches only, fold the top-1 of each batch (an abstract function `prec1`
of the network state and the batch) into an `AverageMeter` weighted by
the batch size, and return the average of the meter together with the
(unmodified) network state. -/
def validate (prec1 : NetState → Batch → ℚ) (net : NetState) (batches : List Batch) :
    ℚ × NetState :=
  let meter := batches.foldl (fun m b => m.update (prec1 net b) b.n) AverageMeter.init
  (meter.average, net)

theorem validate_meter_foldl (prec1 : NetState → Batch → ℚ) (net : NetState) :
    ∀ (batches : List Batch) (m : AverageMeter),
      batches.foldl (fun m b => m.update (prec1 net b) b.n) m =
        ⟨m.sum + (batches.map fun b => prec1 net b * b.n).sum,
         m.count + (batches.map fun b => (b.n : ℚ)).sum⟩ := by
  intro batches
  induction batches with
  | nil => intro m; simp
  | cons b bs ih =>
    intro m
    simp only [List.foldl_cons, List.map_cons, List.sum_cons, ih]
    simp only [AverageMeter.update]
    congr 1 <;> ring

/-- C6: the validator leaves the whole network state (α, w and both
gradient buffers) unchanged, touches only the valid-half stream it is
handed, and returns the count-weighted average of the per-batch top-1
values over all validation examples: `(Σ prec1ᵢ·nᵢ) / (Σ nᵢ)`. -/
theorem validate_frame_and_average (prec1 : NetState → Batch → ℚ) (net : NetState)
    (batches : List Batch) :
    (validate prec1 net batches).2 = net ∧
    (validate prec1 net batches).1 =
      (batches.map fun b => prec1 net b * b.n).sum /
        (batches.map fun b => (b.n : ℚ)).sum := by
  refine ⟨rfl, ?_⟩
  simp only [validate, validate_meter_foldl, AverageMeter.init, AverageMeter.average]
  norm_num

/-! ## The epoch loop of `main` (`run.py` lines 81-135)

Per epoch, `main` runs: `train(...)`, `lr_scheduler.step()`,
`top1 = validate(...)`, `genotype = model.genotype()`, the best-record
update (`if best_top1 < top1: ...`), and `utils.save_checkpoint(model,
config.path, is_best)`.  What one epoch produces numerically — the `α`
left by training and the top-1 of the validator — is abstract data
(`EpochResult`); the genotype extraction `model.genotype()` is an
abstract function `geno` of `α` alone. -/

structure EpochResult where
  alpha : List ℚ
  top1 : ℚ
  deriving DecidableEq, Repr

/-- The phases of one epoch iteration, in source order. -/
inductive Phase where
  | training
  | lrStep
  | validating
  | genotypeExtraction
  | checkpointDecision
  deriving DecidableEq, Repr

/-- One epoch iteration in phase order. -/
def epochPhases : List Phase :=
  [.training, .lrStep, .validating, .genotypeExtraction, .checkpointDecision]

/-- The run-long state of the loop in `main`: the best-record locals
(`best_top1`, initially `0.`, and `best_genotype`, initially unbound,
hence an `Option`), plus traces of the checkpoints written (their
`is_best` flags in epoch order), of the phases executed, and of the
genotype logged each epoch. -/
structure RunState where
  best_top1 : ℚ
  best_genotype : Option (List ℕ)
  checkpoints : List Bool
  phases : List Phase
  genotypes : List (List ℕ)
  deriving DecidableEq, Repr

/-- The state before the first epoch: `best_top1 = 0.`, `best_genotype`
unbound, nothing written. -/
def initState : RunState :=
  ⟨0, none, [], [], []⟩

/-- One iteration of `for epoch in range(config.epochs)`: train, lr
step, validate, extract the genotype from the current `α`, then
`if best_top1 < top1: best_top1 = top1; best_genotype = genotype;
is_best = True else: is_best = False`, then
`utils.save_checkpoint(model, config.path, is_best)`. -/
def epochBody (geno : List ℚ → List ℕ) (s : RunState) (e : EpochResult) : RunState :=
  let genotype := geno e.alpha
  let is_best : Bool := decide (s.best_top1 < e.top1)
  { best_top1 := if is_best then e.top1 else s.best_top1
    best_genotype := if is_best then some genotype else s.best_genotype
    checkpoints := s.checkpoints ++ [is_best]
    phases := s.phases ++ epochPhases
    genotypes := s.genotypes ++ [genotype] }

/-- The whole loop of `main`: fold the epoch body over the per-epoch
results, starting from the initial locals. -/
def mainLoop (geno : List ℚ → List ℕ) (results : List EpochResult) : RunState :=
  results.foldl (epochBody geno) initState

/-- The final report (`run.py` lines 133-134): reading `best_top1` and
`best_genotype`.  If `best_genotype` was never assigned, the read
raises (Python `NameError` / unbound local). -/
def finalReport (s : RunState) : Except String (ℚ × List ℕ) :=
  match s.best_genotype with
  | some g => .ok (s.best_top1, g)
  | none => .error "UnboundLocalError: best_genotype"

theorem epochBody_best_mono (geno : List ℚ → List ℕ) (s : RunState) (e : EpochResult) :
    s.best_top1 ≤ (epochBody geno s e).best_top1 := by
  simp only [epochBody]
  by_cases h : s.best_top1 < e.top1 <;> simp [h, le_of_lt]

theorem foldl_best_mono (geno : List ℚ → List ℕ) :
    ∀ (l : List EpochResult) (s : RunState),
      s.best_top1 ≤ (l.foldl (epochBody geno) s).best_top1 := by
  intro l
  induction l with
  | nil => intro s; simp
  | cons e es ih =>
    intro s
    simp only [List.foldl_cons]
    exact le_trans (epochBody_best_mono geno s e) (ih (epochBody geno s e))

theorem foldl_genotype_origin (geno : List ℚ → List ℕ) :
    ∀ (l : List EpochResult) (s : RunState) (g : List ℕ),
      (l.foldl (epochBody geno) s).best_genotype = some g →
      ((l.foldl (epochBody geno) s).best_top1 = s.best_top1 ∧ s.best_genotype = some g) ∨
      ∃ e ∈ l, e.top1 = (l.foldl (epochBody geno) s).best_top1 ∧ g = geno e.alpha := by
  intro l
  induction l with
  | nil => intro s g hg; exact Or.inl ⟨rfl, hg⟩
  | cons e es ih =>
    intro s g hg
    simp only [List.foldl_cons] at hg ⊢
    rcases ih (epochBody geno s e) g hg with ⟨htop, hgen⟩ | ⟨e', hmem, htop, hgen⟩
    · by_cases h : s.best_top1 < e.top1
      · refine Or.inr ⟨e, List.mem_cons_self .., ?_, ?_⟩
        · rw [htop]; simp [epochBody, h]
        · simp [epochBody, h] at hgen
          exact hgen.symm
      · left
        constructor
        · rw [htop]; simp [epochBody, h]
        · simpa [epochBody, h] using hgen
    · exact Or.inr ⟨e', List.mem_cons_of_mem _ hmem, htop, hgen⟩

/-- C4: the recorded best top-1 is non-decreasing across epochs (any
initial segment of the run has a best no larger than that of the full run); the
best-record locals are replaced only when the top-1 of an epoch is strictly
higher than the current record; and whenever a best genotype is
recorded, it is the genotype extracted from the `α` of an epoch whose
top-1 equals the recorded best. -/
theorem best_record_monotone (geno : List ℚ → List ℕ) (results : List EpochResult) :
    (∀ pre : List EpochResult, pre <+: results →
      (mainLoop geno pre).best_top1 ≤ (mainLoop geno results).best_top1) ∧
    (∀ (s : RunState) (e : EpochResult), ¬ s.best_top1 < e.top1 →
      (epochBody geno s e).best_top1 = s.best_top1 ∧
      (epochBody geno s e).best_genotype = s.best_genotype) ∧
    (∀ g : List ℕ, (mainLoop geno results).best_genotype = some g →
      ∃ e ∈ results, e.top1 = (mainLoop geno results).best_top1 ∧ g = geno e.alpha) := by
  refine ⟨?_, ?_, ?_⟩
  · rintro pre ⟨rest, rfl⟩
    simp only [mainLoop, List.foldl_append]
    exact foldl_best_mono geno rest _
  · intro s e h
    constructor <;> simp [epochBody, h]
  · intro g hg
    rcases foldl_genotype_origin geno results initState g hg with ⟨_, hgen⟩ | hex
    · simp [initState] at hgen
    · exact hex

/-- C4 witness: a one-epoch run whose epoch scores `1`; the recorded
genotype comes from that epoch. -/
theorem best_record_monotone_witness :
    ∃ e ∈ [EpochResult.mk [3] 1], e.top1 =
        (mainLoop (fun a => a.length :: []) [EpochResult.mk [3] 1]).best_top1 ∧
      [1] = (fun a : List ℚ => a.length :: []) e.alpha :=
  (best_record_monotone (fun a => a.length :: []) [EpochResult.mk [3] 1]).2.2 [1] rfl

theorem foldl_checkpoints_count (geno : List ℚ → List ℕ) :
    ∀ (l : List EpochResult) (s : RunState),
      (l.foldl (epochBody geno) s).checkpoints.length = s.checkpoints.length + l.length := by
  intro l
  induction l with
  | nil => intro s; simp
  | cons e es ih =>
    intro s
    simp only [List.foldl_cons, ih, epochBody, List.length_append, List.length_cons]
    simp
    omega

/-- C5: a checkpoint is written unconditionally at every epoch (the
loop writes exactly one per epoch, the "latest" slot), with `is_best`
true exactly when the top-1 of that epoch strictly exceeds the previous
best; at an epoch whose top-1 does not exceed the record, the written
flag is `false` and the best-record locals are unchanged. -/
theorem checkpoint_every_epoch (geno : List ℚ → List ℕ) (results : List EpochResult) :
    (mainLoop geno results).checkpoints.length = results.length ∧
    (∀ (s : RunState) (e : EpochResult),
      (epochBody geno s e).checkpoints = s.checkpoints ++ [decide (s.best_top1 < e.top1)]) ∧
    (∀ (s : RunState) (e : EpochResult), e.top1 ≤ s.best_top1 →
      (epochBody geno s e).checkpoints = s.checkpoints ++ [false] ∧
      (epochBody geno s e).best_top1 = s.best_top1 ∧
      (epochBody geno s e).best_genotype = s.best_genotype) := by
  refine ⟨?_, fun s e => rfl, ?_⟩
  · have h := foldl_checkpoints_count geno results initState
    simpa [mainLoop, initState] using h
  · intro s e h
    have hlt : ¬ s.best_top1 < e.top1 := not_lt.mpr h
    refine ⟨?_, ?_, ?_⟩ <;> simp [epochBody, hlt]

/-- C5 witness: an epoch scoring 40% after a record of 55%: the flag is
`false` and the record survives. -/
theorem checkpoint_every_epoch_witness :
    (epochBody (fun _ => []) ⟨55/100, some [7], [true], epochPhases, [[7]]⟩
        (EpochResult.mk [] (40/100))).checkpoints = [true] ++ [false] ∧
    (epochBody (fun _ => []) ⟨55/100, some [7], [true], epochPhases, [[7]]⟩
        (EpochResult.mk [] (40/100))).best_top1 = 55/100 ∧
    (epochBody (fun _ => []) ⟨55/100, some [7], [true], epochPhases, [[7]]⟩
        (EpochResult.mk [] (40/100))).best_genotype = some [7] :=
  (checkpoint_every_epoch (fun _ => []) []).2.2
    ⟨55/100, some [7], [true], epochPhases, [[7]]⟩ (EpochResult.mk [] (40/100))
    (by norm_num)

theorem foldl_phases (geno : List ℚ → List ℕ) :
    ∀ (l : List EpochResult) (s : RunState),
      (l.foldl (epochBody geno) s).phases =
        s.phases ++ (l.map fun _ => epochPhases).flatten := by
  intro l
  induction l with
  | nil => intro s; simp
  | cons e es ih =>
    intro s
    simp only [List.foldl_cons, ih, epochBody, List.map_cons, List.flatten_cons,
      List.append_assoc]

theorem foldl_genotypes (geno : List ℚ → List ℕ) :
    ∀ (l : List EpochResult) (s : RunState),
      (l.foldl (epochBody geno) s).genotypes =
        s.genotypes ++ (l.map fun e => geno e.alpha) := by
  intro l
  induction l with
  | nil => intro s; simp
  | cons e es ih =>
    intro s
    simp only [List.foldl_cons, ih, epochBody, List.map_cons, List.append_assoc,
      List.singleton_append]

/-- C7: the loop executes, per epoch and in this order, training, then
the learning-rate scheduler step, then validation, then genotype
extraction, then the checkpoint decision; it runs exactly one such
block per configured epoch and then stops; the genotype logged at each
epoch is extracted fresh from the `α` of that epoch alone (so it is
independent of the result of the validator); and the final report returns
the recorded best top-1 together with its genotype. -/
theorem epoch_phase_order (geno : List ℚ → List ℕ) (results : List EpochResult) :
    (mainLoop geno results).phases = (results.map fun _ => epochPhases).flatten ∧
    (mainLoop geno results).phases.length = 5 * results.length ∧
    (mainLoop geno results).genotypes = results.map (fun e => geno e.alpha) ∧
    (∀ g : List ℕ, (mainLoop geno results).best_genotype = some g →
      finalReport (mainLoop geno results) = .ok ((mainLoop geno results).best_top1, g)) := by
  have hph : (mainLoop geno results).phases = (results.map fun _ => epochPhases).flatten := by
    have h := foldl_phases geno results initState
    simpa [mainLoop, initState] using h
  refine ⟨hph, ?_, ?_, ?_⟩
  · rw [hph]
    induction results with
    | nil => rfl
    | cons e es ih =>
      simp only [List.map_cons, List.flatten_cons, List.length_append, ih,
        List.length_cons]
      simp [epochPhases]
      ring
  · have h := foldl_genotypes geno results initState
    simpa [mainLoop, initState] using h
  · intro g hg
    simp [finalReport, hg]

/-- C7 witness: a two-epoch run; the phase trace is two blocks in
order, the genotypes are fresh per epoch, and the report returns the
best record. -/
theorem epoch_phase_order_witness :
    finalReport (mainLoop (fun a => [a.length])
        [EpochResult.mk [5] 1, EpochResult.mk [5, 6] 2]) =
      .ok ((mainLoop (fun a => [a.length])
        [EpochResult.mk [5] 1, EpochResult.mk [5, 6] 2]).best_top1, [2]) :=
  (epoch_phase_order (fun a => [a.length])
    [EpochResult.mk [5] 1, EpochResult.mk [5, 6] 2]).2.2.2 [2] (by decide)

theorem foldl_never_improved (geno : List ℚ → List ℕ) :
    ∀ (l : List EpochResult) (s : RunState),
      (∀ e ∈ l, e.top1 ≤ s.best_top1) →
      l.foldl (epochBody geno) s = { s with
        checkpoints := s.checkpoints ++ (l.map fun _ => false)
        phases := s.phases ++ (l.map fun _ => epochPhases).flatten
        genotypes := s.genotypes ++ (l.map fun e => geno e.alpha) } := by
  intro l
  induction l with
  | nil => intro s _; simp
  | cons e es ih =>
    intro s hle
    have he : e.top1 ≤ s.best_top1 := hle e (List.mem_cons_self ..)
    have hlt : ¬ s.best_top1 < e.top1 := not_lt.mpr he
    have hstep : epochBody geno s e = { s with
        checkpoints := s.checkpoints ++ [false]
        phases := s.phases ++ epochPhases
        genotypes := s.genotypes ++ [geno e.alpha] } := by
      simp [epochBody, hlt]
    have h2 := ih { s with
        checkpoints := s.checkpoints ++ [false]
        phases := s.phases ++ epochPhases
        genotypes := s.genotypes ++ [geno e.alpha] }
      (fun e' he' => hle e' (List.mem_cons_of_mem _ he'))
    simp only [List.foldl_cons, hstep, h2]
    simp [List.append_assoc]

/-- C8: `best_genotype` is assigned only inside the improvement branch
and read unconditionally after the loop, so when the epoch count is
zero, or when no validation top-1 of any epoch strictly exceeds the initial
best of `0`, the final report fails with an unbound-variable error. -/
theorem final_report_unbound (geno : List ℚ → List ℕ) (results : List EpochResult)
    (h : results = [] ∨ ∀ e ∈ results, e.top1 ≤ 0) :
    finalReport (mainLoop geno results) = .error "UnboundLocalError: best_genotype" := by
  have hall : ∀ e ∈ results, e.top1 ≤ 0 := by
    rcases h with rfl | h
    · intro e he; simp at he
    · exact h
  have hfold := foldl_never_improved geno results initState
    (by simpa [initState] using hall)
  simp only [mainLoop, hfold]
  rfl

/-- C8 witness: a one-epoch run whose validation top-1 is `0`: the run
ends with the unbound-variable failure. -/
theorem final_report_unbound_witness :
    finalReport (mainLoop (fun a => [a.length]) [EpochResult.mk [1] 0]) =
      .error "UnboundLocalError: best_genotype" :=
  final_report_unbound (fun a => [a.length]) [EpochResult.mk [1] 0]
    (Or.inr (by intro e he; simp at he; simp [he]))

/-! ## Telemetry throttle guard (`run.py` line 190)

`if step % (config.print_freq // 5) == 0 or step == len(train_loader) - 1:`
The `%` of Python raises `ZeroDivisionError` on a zero right operand, and
`or` evaluates its left operand first, so the guard fails before the
short-circuit can help. -/

/-- Python `%` on non-negative integers: defined only for a non-zero
divisor. -/
def pymod (a b : ℕ) : Option ℕ :=
  if b = 0 then none else some (a % b)

/-- The guard of `run.py` line 190: `step % (print_freq // 5) == 0 or
step == loader_len - 1`, with the left-to-right evaluation order of Python — the
modulo is computed before the disjunction can short-circuit. -/
def alphaLogGuard (step print_freq loader_len : ℕ) : Option Bool :=
  (pymod step (print_freq / 5)).map fun r => r == 0 || step == loader_len - 1

/-- C9: the throttle divides the print frequency by 5, so for any
configured `print_freq < 5` the divisor is `0` and the guard raises a
division-by-zero error at every training step, whatever the step index
or loader length. -/
theorem alphaLogGuard_div_zero (print_freq : ℕ) (h : print_freq < 5) :
    ∀ step loader_len, alphaLogGuard step print_freq loader_len = none := by
  intro step loader_len
  have h5 : print_freq / 5 = 0 := Nat.div_eq_of_lt h
  simp [alphaLogGuard, pymod, h5]

/-- C9 witness: `print_freq = 4` kills the very first step. -/
theorem alphaLogGuard_div_zero_witness :
    alphaLogGuard 0 4 10 = none :=
  alphaLogGuard_div_zero 4 (by decide) 0 10

/-! ## Optimizer construction (`run.py` lines 52-57 and 79)

`w_optim = torch.optim.SGD(model.weights(), config.w_lr,
momentum=config.w_momentum, weight_decay=config.alpha_weight_decay)`
— the weight optimizer is built with the *architecture* weight-decay
coefficient — while
`arch = Architect(model, config.w_momentum, config.w_weight_decay)`
hands the architect the *weight* weight-decay coefficient for its
one-step lookahead.  Torch SGD with decay `d` steps
`w ← w − lr·(g + d·w)` (momentum buffer zero). -/

structure SearchConfig where
  w_lr : ℚ
  w_momentum : ℚ
  w_weight_decay : ℚ
  alpha_lr : ℚ
  alpha_weight_decay : ℚ
  deriving DecidableEq, Repr

/-- The weight-decay coefficient the constructed weight optimizer
applies to `w` (`run.py` line 53). -/
def wOptimWeightDecay (cfg : SearchConfig) : ℚ :=
  cfg.alpha_weight_decay

/-- The weight-decay coefficient the architect is constructed with and
assumes for its one-step lookahead (`run.py` line 79). -/
def architectWeightDecay (cfg : SearchConfig) : ℚ :=
  cfg.w_weight_decay

/-- One decoupled SGD step on a single weight coordinate with decay
`d`, learning rate `lr`, gradient `g` (zero momentum buffer):
`w − lr·(g + d·w)`. -/
def sgdDecayStep (d lr w g : ℚ) : ℚ :=
  w - lr * (g + d * w)

/-- C10: whenever the two configured weight-decay coefficients differ,
the decay the weight optimizer actually applies to `w` differs from the
decay the architect assumes, and on any nonzero weight coordinate with
nonzero learning rate the real weight step and the assumed lookahead
weight step produce different values. -/
theorem weight_decay_mismatch (cfg : SearchConfig)
    (h : cfg.alpha_weight_decay ≠ cfg.w_weight_decay) :
    wOptimWeightDecay cfg ≠ architectWeightDecay cfg ∧
    ∀ lr w g : ℚ, lr ≠ 0 → w ≠ 0 →
      sgdDecayStep (wOptimWeightDecay cfg) lr w g ≠
        sgdDecayStep (architectWeightDecay cfg) lr w g := by
  refine ⟨h, ?_⟩
  intro lr w g hlr hw heq
  apply h
  have hdiff : lr * w * (cfg.alpha_weight_decay - cfg.w_weight_decay) = 0 := by
    simp only [sgdDecayStep, wOptimWeightDecay, architectWeightDecay] at heq
    linear_combination -heq
  rcases mul_eq_zero.mp hdiff with hlw | hd
  · rcases mul_eq_zero.mp hlw with h1 | h2
    · exact absurd h1 hlr
    · exact absurd h2 hw
  · linarith [sub_eq_zero.mp hd]

/-- C10 witness: with `alpha_weight_decay = 1/1000` and
`w_weight_decay = 3/1000`, the real step and the assumed step disagree
at `lr = 1`, `w = 1`, `g = 0`. -/
theorem weight_decay_mismatch_witness :
    sgdDecayStep (wOptimWeightDecay ⟨1/40, 9/10, 3/1000, 3/10000, 1/1000⟩) 1 1 0 ≠
      sgdDecayStep (architectWeightDecay ⟨1/40, 9/10, 3/1000, 3/10000, 1/1000⟩) 1 1 0 :=
  (weight_decay_mismatch ⟨1/40, 9/10, 3/1000, 3/10000, 1/1000⟩ (by norm_num)).2
    1 1 0 (by norm_num) (by norm_num)

end Darts
